import Mathlib

/-!
Verification development for the VRC World Opener content script.

The content script is embedded shallowly:

* JavaScript strings are modelled as lists of UTF-16 code units
  (`JSStr` below), since the source manipulates code units directly
  (surrogate-pair handling in `extractWorldName`).
* The eight regular expressions of `WORLD_PATTERNS` and the two URL
  regexes of `extractWorldIdFromUrl` are translated, pattern by
  pattern, into executable matching functions that implement the
  JavaScript semantics for these specific expressions: leftmost match,
  lazy quantifier growing one step at a time, alternatives tried in
  listed order, greedy whitespace runs with backtracking where a
  shorter run can matter, ASCII case folding for the `i` flag, and
  code-point stepping for the `u` flag.
* DOM state read or written by `processTweet` (processed marker,
  tweet-text subtree, anchors, action bar, injected containers) is
  modelled as an explicit `Tweet` record, and the document as a list
  of tweets.
-/

namespace VWO

/-- A JavaScript string: a list of UTF-16 code units (each < 2^16). -/
abbrev JSStr := List Nat

/-- UTF-16 encoding of one Unicode scalar value. -/
def encodeUtf16Char (c : Char) : List Nat :=
  let n := c.toNat
  if n < 0x10000 then [n]
  else
    let m := n - 0x10000
    [0xD800 + m / 0x400, 0xDC00 + m % 0x400]

/-- UTF-16 code units of a Lean string literal. -/
def u16 (s : String) : JSStr :=
  (s.data.map encodeUtf16Char).flatten

/-- Units matched by the regex class `\s` (also the `trim` set):
JavaScript WhiteSpace and LineTerminator code points. -/
def isJsWS (u : Nat) : Bool :=
  u == 0x09 || u == 0x0A || u == 0x0B || u == 0x0C || u == 0x0D ||
  u == 0x20 || u == 0xA0 || u == 0x1680 ||
  (decide (0x2000 ≤ u) && decide (u ≤ 0x200A)) ||
  u == 0x2028 || u == 0x2029 || u == 0x202F || u == 0x205F ||
  u == 0x3000 || u == 0xFEFF

/-- JavaScript LineTerminator code points (what `.` refuses to match). -/
def isLineTerm (u : Nat) : Bool :=
  u == 0x0A || u == 0x0D || u == 0x2028 || u == 0x2029

/-- `.` (dot) on one code unit: anything but a line terminator. -/
def dotMatch (u : Nat) : Bool := !isLineTerm u

def isHighSur (u : Nat) : Bool := decide (0xD800 ≤ u) && decide (u ≤ 0xDBFF)

def isLowSur (u : Nat) : Bool := decide (0xDC00 ≤ u) && decide (u ≤ 0xDFFF)

def isSurrogate (u : Nat) : Bool := decide (0xD800 ≤ u) && decide (u ≤ 0xDFFF)

/-- Code point encoded by a surrogate pair. -/
def pairCodePoint (hi lo : Nat) : Nat :=
  0x10000 + (hi - 0xD800) * 0x400 + (lo - 0xDC00)

/-- ASCII lowercasing of a code unit.  Models the `i` flag's
canonicalisation for the ASCII literals appearing in the source's
patterns (in non-`u` mode a non-ASCII unit never case-folds onto an
ASCII one, except compatibility points such as U+212A which are not
modelled). -/
def asciiLower (u : Nat) : Nat :=
  if 0x41 ≤ u ∧ u ≤ 0x5A then u + 0x20 else u

/-- Match a case-sensitive literal; returns the remaining suffix. -/
def matchLit : JSStr → JSStr → Option JSStr
  | [], s => some s
  | _ :: _, [] => none
  | l :: ls, u :: rest => if u == l then matchLit ls rest else none

/-- Match an ASCII literal (given in lowercase) case-insensitively;
returns the remaining suffix. -/
def matchLitCI : JSStr → JSStr → Option JSStr
  | [], s => some s
  | _ :: _, [] => none
  | l :: ls, u :: rest => if asciiLower u == l then matchLitCI ls rest else none

/-- Maximal munch of `\s*`. -/
def dropWS (s : JSStr) : JSStr := s.dropWhile isJsWS

/-- Length of the maximal leading whitespace run. -/
def countWS (s : JSStr) : Nat := (s.takeWhile isJsWS).length

/-- Leftmost-match search: try the pattern at every start position,
earliest success wins (the JS engine's outer loop). -/
def scan (tryAt : JSStr → Option JSStr) : JSStr → Option JSStr
  | [] => tryAt []
  | u :: rest =>
    match tryAt (u :: rest) with
    | some r => some r
    | none => scan tryAt rest

/-- Leftmost-match search where the pattern starts with a multiline
`^`: a start position qualifies iff it is position 0 or follows a
line terminator.  `atLS` says whether the current position qualifies. -/
def scanLS (tryAt : JSStr → Option JSStr) : Bool → JSStr → Option JSStr
  | atLS, [] => if atLS then tryAt [] else none
  | atLS, u :: rest =>
    match if atLS then tryAt (u :: rest) else none with
    | some r => some r
    | none => scanLS tryAt (isLineTerm u) rest

/-- `(.+?)T` at a fixed position, unit-stepping dot (no `u` flag):
grow the lazy capture one unit at a time, returning the shortest
non-empty capture after which the terminator test `term` succeeds. -/
def lazyCapU (term : JSStr → Bool) : JSStr → Option JSStr
  | [] => none
  | u :: rest =>
    if dotMatch u then
      if term rest then some [u]
      else
        match lazyCapU term rest with
        | some cs => some (u :: cs)
        | none => none
    else none

/-- `(.+?)T` with the `u` flag: the lazy capture grows one code point
at a time (a well-formed surrogate pair counts as one step; a lone
surrogate is its own code point, and no code point in the surrogate
range or above U+FFFF is a line terminator, so dot accepts it). -/
def lazyCapCP (term : JSStr → Bool) : JSStr → Option JSStr
  | [] => none
  | [u] =>
    if dotMatch u then if term [] then some [u] else none else none
  | u :: v :: rest =>
    if isHighSur u && isLowSur v then
      if term rest then some [u, v]
      else
        match lazyCapCP term rest with
        | some cs => some (u :: v :: cs)
        | none => none
    else if dotMatch u then
      if term (v :: rest) then some [u]
      else
        match lazyCapCP term (v :: rest) with
        | some cs => some (u :: cs)
        | none => none
    else none

/-- Backtracking for a greedy `\s*` immediately before the capture:
try the maximal whitespace run first, then shorter runs down to 0
(the engine backtracks the greedy run when the tail fails). -/
def wsTryDown (body : JSStr → Option JSStr) (s : JSStr) : Nat → Option JSStr
  | 0 => body s
  | i + 1 =>
    match body (s.drop (i + 1)) with
    | some r => some r
    | none => wsTryDown body s i

def wsBacktrack (body : JSStr → Option JSStr) (s : JSStr) : Option JSStr :=
  wsTryDown body s (countWS s)

/-! ### The eight `WORLD_PATTERNS` regexes -/

/-- Terminator `(?:\s*$|\s*#|\n|<)` as a success test at a position
(only success matters: the capture group precedes the terminator).
`\s*$` succeeds iff the rest is all whitespace; `\s*#` iff the first
non-whitespace unit is `#` (the classes exclude each other, so the
greedy run needs no backtracking here). -/
def termA (s : JSStr) : Bool :=
  (dropWS s).isEmpty || (dropWS s).head? == some 0x23 ||
  s.head? == some 0x0A || s.head? == some 0x3C

/-- Terminator `(?:\s*$|\s*#|\r?\n|\r|<)` of the globe-emoji pattern:
as a success test, `\r?\n|\r` accepts a leading LF or CR. -/
def termB (s : JSStr) : Bool :=
  (dropWS s).isEmpty || (dropWS s).head? == some 0x23 ||
  s.head? == some 0x0A || s.head? == some 0x0D || s.head? == some 0x3C

/-- Tail `\s*[:：]\s*(.+?)` + `termA` shared by the `World:`-style
patterns.  The first `\s*` is maximal munch (a colon is not
whitespace); the second backtracks into the capture. -/
def colonCaptureTail (s : JSStr) : Option JSStr :=
  match dropWS s with
  | c :: rest =>
    if c == 0x3A || c == 0xFF1A then wsBacktrack (lazyCapU termA) rest else none
  | [] => none

/-- Pattern 1, `/World\s*[:：]\s*(.+?)(?:\s*$|\s*#|\n|<)/i`. -/
def worldColonPattern (text : JSStr) : Option JSStr :=
  scan (fun s => (matchLitCI (u16 "world") s).bind colonCaptureTail) text

/-- Opening brackets `『「【(（` of pattern 2. -/
def isOpenBracket (u : Nat) : Bool :=
  u == 0x300E || u == 0x300C || u == 0x3010 || u == 0x28 || u == 0xFF08

/-- Closing brackets `』」】)）` of patterns 2 and of the trailing
bracket cleanup. -/
def isCloseBracket (u : Nat) : Bool :=
  u == 0x300F || u == 0x300D || u == 0x3011 || u == 0x29 || u == 0xFF09

/-- Pattern 2, `/World\s*[『「【\(（](.+?)[』」】\)）]/i`. -/
def worldBracketPattern (text : JSStr) : Option JSStr :=
  scan
    (fun s =>
      (matchLitCI (u16 "world") s).bind fun s1 =>
        match dropWS s1 with
        | c :: rest =>
          if isOpenBracket c then
            lazyCapU (fun r => r.head?.elim false isCloseBracket) rest
          else none
        | [] => none)
    text

/-- The five globe alternatives `🌐|🌍|🌎|🌏|🗺️` as code-unit
sequences (U+1F310, U+1F30D, U+1F30E, U+1F30F, U+1F5FA U+FE0F). -/
def matchGlobe (s : JSStr) : Option JSStr :=
  match matchLit [0xD83C, 0xDF10] s with
  | some r => some r
  | none =>
    match matchLit [0xD83C, 0xDF0D] s with
    | some r => some r
    | none =>
      match matchLit [0xD83C, 0xDF0E] s with
      | some r => some r
      | none =>
        match matchLit [0xD83C, 0xDF0F] s with
        | some r => some r
        | none => matchLit [0xD83D, 0xDDFA, 0xFE0F] s

/-- Pattern 3, `/(?:🌐|🌍|🌎|🌏|🗺️)\s*(.+?)(?:\s*$|\s*#|\r?\n|\r|<)/u`:
the `u` flag makes the dot step by code points. -/
def globeEmojiPattern (text : JSStr) : Option JSStr :=
  scan (fun s => (matchGlobe s).bind (wsBacktrack (lazyCapCP termB))) text

/-- `ワールド(?:名)?` prefix: the greedy optional `名` is tried first,
and the engine retries without it if the tail fails. -/
def jpNameOpt (tail : JSStr → Option JSStr) (s : JSStr) : Option JSStr :=
  match s with
  | c :: rest =>
    if c == 0x540D then
      match tail rest with
      | some r => some r
      | none => tail s
    else tail s
  | [] => tail s

/-- Pattern 4, `/ワールド(?:名)?\s*[:：]\s*(.+?)(?:\s*$|\s*#|\n|<)/`. -/
def jpColonPattern (text : JSStr) : Option JSStr :=
  scan (fun s => (matchLit (u16 "ワールド") s).bind (jpNameOpt colonCaptureTail)) text

/-- Tail `[\s　]+(.+?)` + `termA` of pattern 5; `　` (U+3000) is
already in `\s`, so the class equals `\s`.  `\s+` consumes one unit
then behaves as a backtracking `\s*`. -/
def spaceCaptureTail (s : JSStr) : Option JSStr :=
  match s with
  | c :: rest => if isJsWS c then wsBacktrack (lazyCapU termA) rest else none
  | [] => none

/-- Pattern 5, `/ワールド(?:名)?[\s　]+(.+?)(?:\s*$|\s*#|\n|<)/`. -/
def jpSpacePattern (text : JSStr) : Option JSStr :=
  scan (fun s => (matchLit (u16 "ワールド") s).bind (jpNameOpt spaceCaptureTail)) text

/-- Pattern 6, `/World\s*name\s*[:：]\s*(.+?)(?:\s*$|\s*#|\n|<)/i`. -/
def worldNamePattern (text : JSStr) : Option JSStr :=
  scan
    (fun s =>
      (matchLitCI (u16 "world") s).bind fun s1 =>
        (matchLitCI (u16 "name") (dropWS s1)).bind colonCaptureTail)
    text

/-- Terminator `\n+By\s` of pattern 7: one or more LF (maximal munch,
`B` is no LF), then `By` case-insensitively, then one `\s` unit. -/
def termBy (s : JSStr) : Bool :=
  match s with
  | u :: rest =>
    u == 0x0A &&
      (match matchLitCI (u16 "by") (rest.dropWhile (fun x => x == 0x0A)) with
       | some (w :: _) => isJsWS w
       | some [] => false
       | none => false)
  | [] => false

/-- Pattern 7, `/^(.+?)\n+By\s/im`. -/
def byLinePattern (text : JSStr) : Option JSStr :=
  scanLS (lazyCapU termBy) true text

/-- Terminator `\n+Author\s*[:：]?\s` of pattern 8.  After `Author`,
`\s*[:：]?\s` succeeds iff the maximal whitespace run is non-empty
(backtrack one unit for the final `\s`), or a colon follows directly
and is itself followed by a whitespace unit. -/
def termAuthor (s : JSStr) : Bool :=
  match s with
  | u :: rest =>
    u == 0x0A &&
      (match matchLitCI (u16 "author") (rest.dropWhile (fun x => x == 0x0A)) with
       | some r2 =>
         decide (1 ≤ countWS r2) ||
           (match r2 with
            | c :: d :: _ => (c == 0x3A || c == 0xFF1A) && isJsWS d
            | _ => false)
       | none => false)
  | [] => false

/-- Pattern 8, `/^(.+?)\n+Author\s*[:：]?\s/im`. -/
def authorLinePattern (text : JSStr) : Option JSStr :=
  scanLS (lazyCapU termAuthor) true text

/-- `WORLD_PATTERNS`: the fixed, ordered pattern list. -/
def WORLD_PATTERNS : List (JSStr → Option JSStr) :=
  [worldColonPattern, worldBracketPattern, globeEmojiPattern,
   jpColonPattern, jpSpacePattern, worldNamePattern,
   byLinePattern, authorLinePattern]

/-! ### Cleanup pipeline of `extractWorldName` -/

/-- `String.prototype.trim`: strip WhiteSpace and LineTerminator
units at both ends. -/
def jsTrim (w : JSStr) : JSStr :=
  ((w.dropWhile isJsWS).reverse.dropWhile isJsWS).reverse

/-- Does `/\s*#.*$/` match at this position?  It does iff the first
non-whitespace unit is `#` and nothing from there to the end is a
line terminator (`.` cannot cross one and `$` needs the end). -/
def hashTailHere (s : JSStr) : Bool :=
  match dropWS s with
  | 0x23 :: rest => rest.all (fun u => !isLineTerm u)
  | _ => false

/-- `replace(/\s*#.*$/, '')`: delete from the leftmost position where
the pattern matches (the match always reaches the end of the string). -/
def stripHashSuffix : JSStr → JSStr
  | [] => []
  | u :: rest =>
    if hashTailHere (u :: rest) then [] else u :: stripHashSuffix rest

/-- `replace(/[』」】\)）]+$/, '')`: remove the maximal trailing run
of closing brackets (the leftmost match of the end-anchored pattern
starts where that run starts). -/
def stripTrailingBrackets (w : JSStr) : JSStr :=
  (w.reverse.dropWhile isCloseBracket).reverse

/-- Emoji block bound check for `[\u{1F300}-\u{1F9FF}]`. -/
def inEmojiBlock (cp : Nat) : Bool :=
  decide (0x1F300 ≤ cp) && decide (cp ≤ 0x1F9FF)

/-- `replace(/[\u{1F300}-\u{1F9FF}]/gu, '')`: iterate by code points
(`u` flag), dropping every code point in the block.  All block
members are astral, so only well-formed surrogate pairs are dropped;
lone surrogates are code points outside the block and are kept. -/
def removeEmojiBlock : JSStr → JSStr
  | [] => []
  | [u] => [u]
  | u :: v :: rest =>
    if isHighSur u && isLowSur v then
      if inEmojiBlock (pairCodePoint u v) then removeEmojiBlock rest
      else u :: v :: removeEmojiBlock rest
    else u :: removeEmojiBlock (v :: rest)

/-- `replace(/[\uD800-\uDFFF]/g, '')`: without the `u` flag this
drops every surrogate code unit, paired or not. -/
def removeSurrogateUnits (w : JSStr) : JSStr :=
  w.filter (fun u => !isSurrogate u)

/-- Lines 160–161 of the source: emoji-block removal, trim, surrogate
removal, trim. -/
def stripEmojiAndSurrogates (w : JSStr) : JSStr :=
  jsTrim (removeSurrogateUnits (jsTrim (removeEmojiBlock w)))

/-- The full cleanup applied to a raw capture `match[1]`; `some` iff
the residue is non-empty. -/
def cleanupWorldName (raw : JSStr) : Option JSStr :=
  let w1 := jsTrim raw
  let w2 := jsTrim (stripHashSuffix w1)
  let w3 := jsTrim (stripTrailingBrackets w2)
  let w5 := stripEmojiAndSurrogates w3
  if 0 < w5.length then some w5 else none

/-- The `for (const pattern of WORLD_PATTERNS)` loop: first pattern
whose capture survives cleanup wins; otherwise continue. -/
def extractFromPatterns : List (JSStr → Option JSStr) → JSStr → Option JSStr
  | [], _ => none
  | p :: ps, text =>
    match (p text).bind cleanupWorldName with
    | some w => some w
    | none => extractFromPatterns ps text

/-- `extractWorldName`: `null` for a falsy input (the empty string),
else the pattern loop. -/
def extractWorldName (text : JSStr) : Option JSStr :=
  if text.isEmpty then none else extractFromPatterns WORLD_PATTERNS text

/-! ### `extractWorldIdFromUrl` -/

/-- The class `[a-f0-9-]` under the `i` flag: hex letters of either
case, digits, hyphen. -/
def isHexIdUnit (u : Nat) : Bool :=
  (decide (0x61 ≤ u) && decide (u ≤ 0x66)) ||
  (decide (0x41 ≤ u) && decide (u ≤ 0x46)) ||
  (decide (0x30 ≤ u) && decide (u ≤ 0x39)) ||
  u == 0x2D

/-- `[a-f0-9-]{k}`: exactly `k` units of the class, returned as they
appear in the input. -/
def grabHex : Nat → JSStr → Option JSStr
  | 0, _ => some []
  | _ + 1, [] => none
  | k + 1, u :: rest =>
    if isHexIdUnit u then (grabHex k rest).map (fun h => u :: h) else none

/-- The capture `(wrld_[a-f0-9-]{36})` at a position: the captured
text keeps the input's own case. -/
def matchWrldId (s : JSStr) : Option JSStr :=
  match matchLitCI (u16 "wrld_") s with
  | some rest => (grabHex 36 rest).map (fun h => s.take 5 ++ h)
  | none => none

/-- One attempt of `/vrchat\.com\/home\/world\/(wrld_...)/i`. -/
def tryWorldPath (s : JSStr) : Option JSStr :=
  (matchLitCI (u16 "vrchat.com/home/world/") s).bind matchWrldId

/-- One attempt of `/[?&]worldId=(wrld_...)/i`. -/
def tryWorldQuery (s : JSStr) : Option JSStr :=
  match s with
  | c :: rest =>
    if c == 0x3F || c == 0x26 then
      (matchLitCI (u16 "worldid=") rest).bind matchWrldId
    else none
  | [] => none

/-- `extractWorldIdFromUrl`: `null` on a falsy url, else the path
form, else the query form. -/
def extractWorldIdFromUrl (url : JSStr) : Option JSStr :=
  if url.isEmpty then none
  else
    match scan tryWorldPath url with
    | some id => some id
    | none => scan tryWorldQuery url

/-! ### `getTextWithEmoji` (Text Normalizer) -/

/-- A DOM node as far as `getTextWithEmoji` observes it: a text node
with its `textContent`, or an element with tag name, `alt` attribute
and children (nodes of other types are skipped by the source and are
not modelled). -/
inductive DNode where
  | textNode (content : JSStr)
  | elem (tag : String) (alt : JSStr) (children : List DNode)

mutual

/-- The recursive `traverse`: a text node contributes its content; an
element contributes its `alt` when it is an `IMG` with a truthy
(non-empty) `alt`, then its children in document order. -/
def traverseNode : DNode → JSStr
  | .textNode c => c
  | .elem tag alt children =>
    (if tag == "IMG" && !alt.isEmpty then alt else []) ++ traverseChildren children

def traverseChildren : List DNode → JSStr
  | [] => []
  | n :: rest => traverseNode n ++ traverseChildren rest

end

/-- `getTextWithEmoji`: empty string for a null element. -/
def getTextWithEmoji : Option DNode → JSStr
  | none => []
  | some n => traverseNode n

/-! ### `processTweet` (Post Processor) -/

/-- `#vrchat_world紹介`, the lowercase trigger hashtag. -/
def TARGET_HASHTAG : JSStr := u16 "#vrchat_world紹介"

/-- `String.prototype.toLowerCase`, modelled as ASCII simple case
mapping (identity on non-ASCII units).  This is the exact behaviour
on every unit that can contribute to an occurrence of the all-ASCII /
CJK trigger hashtag, apart from exotic compatibility points (e.g.
U+212A) that full Unicode lowercasing would also fold. -/
def jsToLower (w : JSStr) : JSStr := w.map asciiLower

/-- `haystack.includes(needle)`: does `needle` occur contiguously in
`hay`? -/
def jsIncludes : JSStr → JSStr → Bool
  | [], needle => needle.isEmpty
  | u :: rest, needle => needle.isPrefixOf (u :: rest) || jsIncludes rest needle

/-- An anchor element: the three fields `processTweet` probes. -/
structure Anchor where
  href : JSStr
  textContent : JSStr
  title : JSStr
deriving DecidableEq

/-- The open-world control: either pre-resolved (`dataset.worldId`
set, label `このワールド`) or keyed by the extracted name. -/
inductive OpenButton where
  | byId (worldId : JSStr)
  | byName (worldName : JSStr)
deriving DecidableEq

/-- One injected `vrchat-world-link-container` and its controls. -/
structure ControlGroup where
  openBtn : Option OpenButton
  searchBtn : Option JSStr
deriving DecidableEq

/-- One post element as `processTweet` observes and annotates it. -/
structure Tweet where
  /-- the `data-vrchat-world-linker-processed` marker -/
  processed : Bool
  /-- result of `querySelector('[data-testid="tweetText"]')` -/
  textElem : Option DNode
  /-- anchors of `querySelectorAll('a')`, in document order -/
  links : List Anchor
  /-- an action bar (`[role="group"]`) with a parent exists -/
  hasActionBar : Bool
  /-- injected containers, in insertion order -/
  controlGroups : List ControlGroup

/-- The user-toggle state held in the module-level variables. -/
structure Settings where
  isExtensionEnabled : Bool
  showOpenBtn : Bool
  showSearchBtn : Bool
deriving DecidableEq

/-- The loop over `querySelectorAll('a')`: per anchor, href first,
then visible text, then title; first identifier wins. -/
def findWorldIdInLinks : List Anchor → Option JSStr
  | [] => none
  | a :: rest =>
    match extractWorldIdFromUrl a.href with
    | some id => some id
    | none =>
      match extractWorldIdFromUrl a.textContent with
      | some id => some id
      | none =>
        match extractWorldIdFromUrl a.title with
        | some id => some id
        | none => findWorldIdInLinks rest

/-- `querySelector('.vrchat-world-link-btn')`: a button exists iff
some injected group holds one. -/
def hasWorldLinkBtn (t : Tweet) : Bool :=
  t.controlGroups.any (fun g => g.openBtn.isSome || g.searchBtn.isSome)

/-- Body of `processTweet` after the marker has been set. -/
def processTweetCore (st : Settings) (t : Tweet) : Tweet :=
  match t.textElem with
  | none => t
  | some te =>
    let tweetText := getTextWithEmoji (some te)
    if tweetText.isEmpty then t
    else if !jsIncludes (jsToLower tweetText) TARGET_HASHTAG then t
    else
      let worldName := extractWorldName tweetText
      let foundWorldId := findWorldIdInLinks t.links
      if worldName.isNone && foundWorldId.isNone then t
      else if hasWorldLinkBtn t then t
      else
        let openBtn : Option OpenButton :=
          if st.showOpenBtn then
            match foundWorldId with
            | some id => some (OpenButton.byId id)
            | none => worldName.map OpenButton.byName
          else none
        let searchBtn : Option JSStr :=
          if st.showSearchBtn then worldName else none
        if (openBtn.isSome || searchBtn.isSome) && t.hasActionBar then
          { t with controlGroups := t.controlGroups ++ [⟨openBtn, searchBtn⟩] }
        else t

/-- `processTweet`: no-op when already marked, else the marker is set
first and the body runs on the marked element. -/
def processTweet (st : Settings) (t : Tweet) : Tweet :=
  if t.processed then t else processTweetCore st { t with processed := true }

/-- `processAllTweets` over the document's tweets in document order. -/
def processAllTweets (st : Settings) (doc : List Tweet) : List Tweet :=
  doc.map (processTweet st)

/-! ### Settings storage, update handler, initialization -/

/-- A stored or messaged settings value: `none` models a missing or
`undefined` key, `some b` a boolean.  `flagOf` is the source's
`value !== false` test. -/
def flagOf : Option Bool → Bool
  | some false => false
  | _ => true

/-- The three keys of a settings read or an `UPDATE_SETTINGS`
message. -/
structure SettingsMsg where
  extensionEnabled : Option Bool
  showOpenBtn : Option Bool
  showSearchBtn : Option Bool

/-- Lines 486–488 / 519–521: each flag set by the `!== false` test. -/
def settingsFromMsg (m : SettingsMsg) : Settings :=
  ⟨flagOf m.extensionEnabled, flagOf m.showOpenBtn, flagOf m.showSearchBtn⟩

/-- `querySelectorAll('.vrchat-world-link-container') … remove()`. -/
def removeContainers (t : Tweet) : Tweet := { t with controlGroups := [] }

/-- `querySelectorAll('[data-…-processed]') … removeAttribute`. -/
def clearProcessed (t : Tweet) : Tweet := { t with processed := false }

/-- Both clearing passes together. -/
def clearTweet (t : Tweet) : Tweet :=
  { t with controlGroups := [], processed := false }

/-- The `UPDATE_SETTINGS` branch of the message listener: with a
truthy `settings` payload, update the flags, remove every injected
container, clear every processed marker, and rescan iff the new
enabled flag holds; a falsy payload changes nothing. -/
def onUpdateSettings (req : Option SettingsMsg) (st : Settings)
    (doc : List Tweet) : Settings × List Tweet :=
  match req with
  | none => (st, doc)
  | some m =>
    let st' := settingsFromMsg m
    let doc' := (doc.map removeContainers).map clearProcessed
    if st'.isExtensionEnabled then (st', processAllTweets st' doc') else (st', doc')

/-- `init` (success path): read the three stored flags, process all
tweets iff enabled. -/
def initContentScript (stored : SettingsMsg) (doc : List Tweet) :
    Settings × List Tweet :=
  let st := settingsFromMsg stored
  (st, if st.isExtensionEnabled then processAllTweets st doc else doc)

/-- `processAllTweetsIfEnabled` (success path): re-read the enabled
flag from storage, process iff enabled. -/
def processAllTweetsIfEnabled (storedEnabled : Option Bool) (st : Settings)
    (doc : List Tweet) : Settings × List Tweet :=
  let st' := { st with isExtensionEnabled := flagOf storedEnabled }
  if st'.isExtensionEnabled then (st', processAllTweets st' doc) else (st', doc)

/-! ### `setupObserver` (Mutation Watcher) -/

/-- Timer bookkeeping: ids of scheduled debounce timers that are
neither cancelled nor fired, the id held by `debounceTimerId` (`none`
models `null`), and the next fresh id `setTimeout` will hand out. -/
structure TimerState where
  pending : List Nat
  debounceTimerId : Option Nat
  nextId : Nat
deriving DecidableEq

/-- The `MutationObserver` callback on one mutation batch (each entry
is a record's `addedNodes.length`): if some record added nodes,
cancel the remembered timer and schedule a fresh one; otherwise do
nothing. -/
def observerCallback (muts : List Nat) (s : TimerState) : TimerState :=
  if muts.any (fun n => decide (0 < n)) then
    let pend :=
      match s.debounceTimerId with
      | some id => s.pending.filter (fun x => x != id)
      | none => s.pending
    { pending := pend ++ [s.nextId],
      debounceTimerId := some s.nextId,
      nextId := s.nextId + 1 }
  else s

/-- A burst of mutation batches all arriving within the debounce
delay (so no timer fires in between). -/
def runBatches (batches : List (List Nat)) (s : TimerState) : TimerState :=
  batches.foldl (fun s b => observerCallback b s) s

/-- Feed Scanner invocations that will result once the burst ends:
one per surviving timer. -/
def pendingScans (s : TimerState) : Nat := s.pending.length

/-! ### Helper lemmas about `processTweet` -/

lemma processTweet_marked (st : Settings) (t : Tweet) (h : t.processed = true) :
    processTweet st t = t := by
  simp [processTweet, h]

lemma processTweet_not_processed (st : Settings) (t : Tweet) (h : t.processed = false) :
    processTweet st t = processTweetCore st { t with processed := true } := by
  simp [processTweet, h]

/-- The body either leaves the tweet alone or appends one container. -/
lemma processTweetCore_cases (st : Settings) (t : Tweet) :
    processTweetCore st t = t ∨
    ∃ g, processTweetCore st t = { t with controlGroups := t.controlGroups ++ [g] } := by
  cases h : t.textElem with
  | none => left; simp [processTweetCore, h]
  | some te =>
    simp only [processTweetCore, h]
    repeat' split
    all_goals first
      | (left; rfl)
      | (right; exact ⟨_, rfl⟩)

lemma processTweetCore_processed (st : Settings) (t : Tweet) :
    (processTweetCore st t).processed = t.processed := by
  rcases processTweetCore_cases st t with h | ⟨g, h⟩ <;> rw [h]

/-- An empty text cannot pass the hashtag gate. -/
lemma gate_text_ne_nil {text : JSStr}
    (h : jsIncludes (jsToLower text) TARGET_HASHTAG = true) : text.isEmpty = false := by
  cases text with
  | nil => exact absurd h (by decide)
  | cons u rest => rfl

/-- Gate failure: the body returns the tweet unchanged. -/
lemma processTweetCore_gate_stop (st : Settings) (t : Tweet) (te : DNode)
    (hte : t.textElem = some te)
    (hgate : jsIncludes (jsToLower (getTextWithEmoji (some te))) TARGET_HASHTAG = false) :
    processTweetCore st t = t := by
  simp [processTweetCore, hte, hgate]

/-- Qualifying tweet with an extracted name: the body appends exactly
one container whose open control prefers a link-resolved identifier
and whose search control carries the name iff that setting is on. -/
lemma processTweetCore_adds_name (st : Settings) (t : Tweet) (te : DNode) (nm : JSStr)
    (hopen : st.showOpenBtn = true)
    (hte : t.textElem = some te)
    (hgate : jsIncludes (jsToLower (getTextWithEmoji (some te))) TARGET_HASHTAG = true)
    (hname : extractWorldName (getTextWithEmoji (some te)) = some nm)
    (hbtn : hasWorldLinkBtn t = false)
    (hbar : t.hasActionBar = true) :
    processTweetCore st t =
      { t with controlGroups := t.controlGroups ++
          [⟨some ((findWorldIdInLinks t.links).elim (OpenButton.byName nm) OpenButton.byId),
            if st.showSearchBtn then some nm else none⟩] } := by
  have hne := gate_text_ne_nil hgate
  cases h : findWorldIdInLinks t.links with
  | none => simp [processTweetCore, hte, hne, hgate, hname, h, hbtn, hbar, hopen]
  | some id => simp [processTweetCore, hte, hne, hgate, hname, h, hbtn, hbar, hopen]

/-- Qualifying tweet with a link identifier but no extractable name:
the appended container has an identifier-backed open control and no
search control, whatever the search setting. -/
lemma processTweetCore_adds_id (st : Settings) (t : Tweet) (te : DNode) (id : JSStr)
    (hopen : st.showOpenBtn = true)
    (hte : t.textElem = some te)
    (hgate : jsIncludes (jsToLower (getTextWithEmoji (some te))) TARGET_HASHTAG = true)
    (hname : extractWorldName (getTextWithEmoji (some te)) = none)
    (hid : findWorldIdInLinks t.links = some id)
    (hbtn : hasWorldLinkBtn t = false)
    (hbar : t.hasActionBar = true) :
    processTweetCore st t =
      { t with controlGroups := t.controlGroups ++
          [⟨some (OpenButton.byId id), none⟩] } := by
  have hne := gate_text_ne_nil hgate
  simp [processTweetCore, hte, hne, hgate, hname, hid, hbtn, hbar, hopen]

/-! ### Claim theorems -/

/-- Claim C1: processing a post twice with unchanged settings is
idempotent — the marker is set by the first call whatever the
outcome, a marked post is returned untouched, a single call adds at
most one control group, and on a qualifying post the two calls
together leave exactly one control group. -/
theorem post_processor_idempotent :
    (∀ (st : Settings) (t : Tweet),
      processTweet st (processTweet st t) = processTweet st t ∧
      (processTweet st t).processed = true ∧
      (t.processed = true → processTweet st t = t) ∧
      (processTweet st t).controlGroups.length ≤ t.controlGroups.length + 1) ∧
    (∀ (st : Settings) (t : Tweet) (te : DNode) (nm : JSStr),
      st.showOpenBtn = true → t.processed = false → t.controlGroups = [] →
      t.textElem = some te →
      jsIncludes (jsToLower (getTextWithEmoji (some te))) TARGET_HASHTAG = true →
      extractWorldName (getTextWithEmoji (some te)) = some nm →
      t.hasActionBar = true →
      (processTweet st (processTweet st t)).controlGroups.length = 1) := by
  constructor
  · intro st t
    by_cases hp : t.processed = true
    · rw [processTweet_marked st t hp]
      exact ⟨processTweet_marked st t hp, hp, fun _ => rfl, Nat.le_succ _⟩
    · have hp' : t.processed = false := by
        cases h : t.processed
        · rfl
        · exact absurd h hp
      rw [processTweet_not_processed st t hp']
      have hmark : (processTweetCore st { t with processed := true }).processed = true := by
        rw [processTweetCore_processed]
      refine ⟨processTweet_marked st _ hmark, hmark, fun h => absurd h hp, ?_⟩
      rcases processTweetCore_cases st { t with processed := true } with h | ⟨g, h⟩
      · rw [h]; exact Nat.le_succ _
      · rw [h]; simp
  · intro st t te nm hopen hp hcg hte hgate hname hbar
    rw [processTweet_not_processed st t hp]
    have hmark : (processTweetCore st { t with processed := true }).processed = true := by
      rw [processTweetCore_processed]
    rw [processTweet_marked st _ hmark]
    have hbtn : hasWorldLinkBtn { t with processed := true } = false := by
      simp [hasWorldLinkBtn, hcg]
    rw [processTweetCore_adds_name st { t with processed := true } te nm hopen hte hgate
      hname hbtn hbar]
    simp [hcg]

/-- Witness for C1 on a concrete qualifying post. -/
theorem post_processor_idempotent_wit :
    (processTweet ⟨true, true, true⟩
      (processTweet ⟨true, true, true⟩
        ⟨false, some (DNode.textNode (u16 "World: Alpha\n#VRChat_World紹介")), [], true, []⟩)
      ).controlGroups.length = 1 :=
  post_processor_idempotent.2 ⟨true, true, true⟩
    ⟨false, some (DNode.textNode (u16 "World: Alpha\n#VRChat_World紹介")), [], true, []⟩
    (DNode.textNode (u16 "World: Alpha\n#VRChat_World紹介")) (u16 "Alpha")
    rfl rfl rfl rfl (by decide) (by decide) rfl

/-- Claim C4: if the normalized text lacks the trigger hashtag
(case-insensitively), processing stops after setting the marker: the
tweet is otherwise untouched and in particular no control group is
attached. -/
theorem activation_gate_stops (st : Settings) (t : Tweet) (te : DNode)
    (hproc : t.processed = false)
    (hte : t.textElem = some te)
    (hgate : jsIncludes (jsToLower (getTextWithEmoji (some te))) TARGET_HASHTAG = false) :
    processTweet st t = { t with processed := true } ∧
    (processTweet st t).controlGroups = t.controlGroups := by
  have h : processTweet st t = { t with processed := true } := by
    rw [processTweet_not_processed st t hproc]
    exact processTweetCore_gate_stop st { t with processed := true } te hte hgate
  exact ⟨h, by rw [h]⟩

/-- Witness for C4: a post whose text would match pattern 1 but
carries no hashtag. -/
theorem activation_gate_stops_wit :
    processTweet ⟨true, true, true⟩
        ⟨false, some (DNode.textNode (u16 "World: Alpha")), [], true, []⟩ =
      ⟨true, some (DNode.textNode (u16 "World: Alpha")), [], true, []⟩ ∧
    (processTweet ⟨true, true, true⟩
        ⟨false, some (DNode.textNode (u16 "World: Alpha")), [], true, []⟩).controlGroups = [] :=
  activation_gate_stops ⟨true, true, true⟩
    ⟨false, some (DNode.textNode (u16 "World: Alpha")), [], true, []⟩
    (DNode.textNode (u16 "World: Alpha")) rfl rfl (by decide)

/-- Claim C5: when a post yields both a URL identifier and a free-text
name and both controls are enabled, the single built group opens by
identifier and searches by name; and when no name exists the group
carries no search control even with the setting enabled. -/
theorem link_precedence :
    (∀ (st : Settings) (t : Tweet) (te : DNode) (nm id : JSStr),
      st.showOpenBtn = true → st.showSearchBtn = true →
      t.processed = false → t.controlGroups = [] →
      t.textElem = some te →
      jsIncludes (jsToLower (getTextWithEmoji (some te))) TARGET_HASHTAG = true →
      extractWorldName (getTextWithEmoji (some te)) = some nm →
      findWorldIdInLinks t.links = some id →
      t.hasActionBar = true →
      (processTweet st t).controlGroups = [⟨some (OpenButton.byId id), some nm⟩]) ∧
    (∀ (st : Settings) (t : Tweet) (te : DNode) (id : JSStr),
      st.showOpenBtn = true → st.showSearchBtn = true →
      t.processed = false → t.controlGroups = [] →
      t.textElem = some te →
      jsIncludes (jsToLower (getTextWithEmoji (some te))) TARGET_HASHTAG = true →
      extractWorldName (getTextWithEmoji (some te)) = none →
      findWorldIdInLinks t.links = some id →
      t.hasActionBar = true →
      (processTweet st t).controlGroups = [⟨some (OpenButton.byId id), none⟩]) := by
  constructor
  · intro st t te nm id hopen hsearch hp hcg hte hgate hname hid hbar
    rw [processTweet_not_processed st t hp]
    have hbtn : hasWorldLinkBtn { t with processed := true } = false := by
      simp [hasWorldLinkBtn, hcg]
    rw [processTweetCore_adds_name st { t with processed := true } te nm hopen hte hgate
      hname hbtn hbar]
    simp [hcg, hid, hsearch]
  · intro st t te id hopen hsearch hp hcg hte hgate hname hid hbar
    rw [processTweet_not_processed st t hp]
    have hbtn : hasWorldLinkBtn { t with processed := true } = false := by
      simp [hasWorldLinkBtn, hcg]
    rw [processTweetCore_adds_id st { t with processed := true } te id hopen hte hgate
      hname hid hbtn hbar]
    simp [hcg]

/-- Witness for C5: a concrete post carrying both a `World:` line and
a world-page link, and a concrete post carrying only the link. -/
theorem link_precedence_wit :
    (processTweet ⟨true, true, true⟩
      ⟨false, some (DNode.textNode (u16 "World: Alpha\n#VRChat_World紹介")),
       [⟨u16 "https://vrchat.com/home/world/wrld_aaaaaaaa-aaaa-aaaa-aaaa-aaaaaaaaaaaa", [], []⟩],
       true, []⟩).controlGroups =
      [⟨some (OpenButton.byId (u16 "wrld_aaaaaaaa-aaaa-aaaa-aaaa-aaaaaaaaaaaa")),
        some (u16 "Alpha")⟩] ∧
    (processTweet ⟨true, true, true⟩
      ⟨false, some (DNode.textNode (u16 "checking #VRChat_World紹介")),
       [⟨u16 "https://vrchat.com/home/world/wrld_aaaaaaaa-aaaa-aaaa-aaaa-aaaaaaaaaaaa", [], []⟩],
       true, []⟩).controlGroups =
      [⟨some (OpenButton.byId (u16 "wrld_aaaaaaaa-aaaa-aaaa-aaaa-aaaaaaaaaaaa")), none⟩] :=
  ⟨link_precedence.1 ⟨true, true, true⟩
      ⟨false, some (DNode.textNode (u16 "World: Alpha\n#VRChat_World紹介")),
       [⟨u16 "https://vrchat.com/home/world/wrld_aaaaaaaa-aaaa-aaaa-aaaa-aaaaaaaaaaaa", [], []⟩],
       true, []⟩
      (DNode.textNode (u16 "World: Alpha\n#VRChat_World紹介"))
      (u16 "Alpha") (u16 "wrld_aaaaaaaa-aaaa-aaaa-aaaa-aaaaaaaaaaaa")
      rfl rfl rfl rfl rfl (by decide) (by decide) (by decide) rfl,
   link_precedence.2 ⟨true, true, true⟩
      ⟨false, some (DNode.textNode (u16 "checking #VRChat_World紹介")),
       [⟨u16 "https://vrchat.com/home/world/wrld_aaaaaaaa-aaaa-aaaa-aaaa-aaaaaaaaaaaa", [], []⟩],
       true, []⟩
      (DNode.textNode (u16 "checking #VRChat_World紹介"))
      (u16 "wrld_aaaaaaaa-aaaa-aaaa-aaaa-aaaaaaaaaaaa")
      rfl rfl rfl rfl rfl (by decide) (by decide) (by decide) rfl⟩

/-- The pattern loop respects list order: if every earlier pattern's
attempt dies (no match, or cleanup empties it) and pattern `i`
produces `w`, the loop returns `w`. -/
lemma extractFromPatterns_priority :
    ∀ (ps : List (JSStr → Option JSStr)) (text : JSStr) (i : Nat)
      (pi : JSStr → Option JSStr) (w : JSStr),
      ps[i]? = some pi →
      (∀ j, j < i → ∀ q, ps[j]? = some q → (q text).bind cleanupWorldName = none) →
      (pi text).bind cleanupWorldName = some w →
      extractFromPatterns ps text = some w := by
  intro ps
  induction ps with
  | nil => intro text i pi w hget; simp at hget
  | cons p ps ih =>
    intro text i pi w hget hprev hpi
    cases i with
    | zero =>
      simp only [List.getElem?_cons_zero, Option.some.injEq] at hget
      subst hget
      simp [extractFromPatterns, hpi]
    | succ n =>
      have h0 : (p text).bind cleanupWorldName = none := by
        exact hprev 0 (Nat.succ_pos n) p (by simp)
      simp only [extractFromPatterns, h0]
      simp only [List.getElem?_cons_succ] at hget
      exact ih text n pi w hget
        (fun j hj q hq => hprev (j + 1) (Nat.succ_lt_succ hj) q
          (by simpa using hq)) hpi

/-- Claim C2 (amended): the loop is top-to-bottom, first non-empty
cleaned capture wins; with the `World:` capture terminated before the
globe form — as in `World: Alpha\n🌐 Beta` — the result is `Alpha`
even though the globe pattern alone would yield `Beta`; but when both
forms share one line, the `World:` capture runs through the globe
part and the result is `Alpha  Beta` after emoji removal, not
`Alpha`. -/
theorem pattern_priority :
    (∀ (ps : List (JSStr → Option JSStr)) (text : JSStr) (i : Nat)
       (pi : JSStr → Option JSStr) (w : JSStr),
      ps[i]? = some pi →
      (∀ j, j < i → ∀ q, ps[j]? = some q → (q text).bind cleanupWorldName = none) →
      (pi text).bind cleanupWorldName = some w →
      extractFromPatterns ps text = some w) ∧
    extractWorldName (u16 "World: Alpha\n🌐 Beta") = some (u16 "Alpha") ∧
    (globeEmojiPattern (u16 "World: Alpha\n🌐 Beta")).bind cleanupWorldName =
      some (u16 "Beta") ∧
    extractWorldName (u16 "World: Alpha 🌐 Beta") = some (u16 "Alpha  Beta") := by
  refine ⟨extractFromPatterns_priority, by decide, by decide, by decide⟩

/-- Counterexample for C2 as frozen: `World: Alpha 🌐 Beta` contains
`World: Alpha` and a trailing `🌐 Beta`, yet extraction does not
return `Alpha`. -/
theorem pattern_priority_cex :
    extractWorldName (u16 "World: Alpha 🌐 Beta") ≠ some (u16 "Alpha") ∧
    extractWorldName (u16 "World: Alpha 🌐 Beta") = some (u16 "Alpha  Beta") := by
  constructor
  · decide
  · decide

/-- Witness for C2: the third-listed globe pattern wins on `🌐 Beta`
once the two earlier patterns are shown to fail there. -/
theorem pattern_priority_wit :
    extractFromPatterns WORLD_PATTERNS (u16 "🌐 Beta") = some (u16 "Beta") := by
  refine pattern_priority.1 WORLD_PATTERNS (u16 "🌐 Beta") 2 globeEmojiPattern
    (u16 "Beta") rfl ?_ (by decide)
  intro j hj q hq
  cases j with
  | zero =>
    simp only [WORLD_PATTERNS, List.getElem?_cons_zero, Option.some.injEq] at hq
    subst hq
    decide
  | succ j' =>
    cases j' with
    | zero =>
      simp only [WORLD_PATTERNS, List.getElem?_cons_succ, List.getElem?_cons_zero,
        Option.some.injEq] at hq
      subst hq
      decide
    | succ j'' => omega

lemma mem_jsTrim {u : Nat} {w : JSStr} (h : u ∈ jsTrim w) : u ∈ w := by
  rw [jsTrim, List.mem_reverse] at h
  have h1 := (List.dropWhile_sublist isJsWS).subset h
  rw [List.mem_reverse] at h1
  exact (List.dropWhile_sublist isJsWS).subset h1

lemma high_of_surrogate_false {u : Nat} (h : isSurrogate u = false) :
    isHighSur u = false := by
  simp only [isSurrogate, Bool.and_eq_false_iff, decide_eq_false_iff_not, not_le] at h
  simp only [isHighSur, Bool.and_eq_false_iff, decide_eq_false_iff_not, not_le]
  rcases h with h | h
  · exact Or.inl h
  · right; omega

lemma removeEmojiBlock_id {w : JSStr} (h : ∀ u ∈ w, isHighSur u = false) :
    removeEmojiBlock w = w := by
  induction w with
  | nil => rfl
  | cons u rest ih =>
    cases rest with
    | nil => rfl
    | cons v rest2 =>
      have hu : isHighSur u = false := h u (by simp)
      rw [removeEmojiBlock, hu]
      simp only [Bool.false_and, Bool.false_eq_true, if_false]
      rw [ih (fun x hx => h x (List.mem_cons_of_mem u hx))]

lemma removeSurrogateUnits_id {w : JSStr} (h : ∀ u ∈ w, isSurrogate u = false) :
    removeSurrogateUnits w = w := by
  rw [removeSurrogateUnits, List.filter_eq_self]
  intro a ha
  rw [h a ha]
  rfl

/-- Claim C6 (amended): the emoji/surrogate cleanup stage first drops
every code point of the pictographic block, then drops every
remaining surrogate code unit — paired or lone — and trims; so its
output never contains a surrogate unit, while input without surrogate
units and without boundary whitespace passes through unchanged.  A
well-paired astral character outside the block is therefore removed,
not preserved. -/
theorem surrogate_strip :
    (∀ (w : JSStr) (u : Nat), u ∈ stripEmojiAndSurrogates w → isSurrogate u = false) ∧
    (∀ w : JSStr, (∀ u ∈ w, isSurrogate u = false) → jsTrim w = w →
      stripEmojiAndSurrogates w = w) := by
  constructor
  · intro w u hu
    have h1 := mem_jsTrim hu
    have h2 := List.of_mem_filter h1
    simp only [Bool.not_eq_true'] at h2
    exact h2
  · intro w hsur htrim
    rw [stripEmojiAndSurrogates,
      removeEmojiBlock_id (fun u hu => high_of_surrogate_false (hsur u hu)),
      htrim, removeSurrogateUnits_id hsur, htrim]

/-- Counterexample for C6 as frozen: `𝄞` (U+1D11E) is a well-formed
surrogate pair outside the pictographic block, yet the cleanup stage
deletes it: extraction of `World: a𝄞b` returns `ab`. -/
theorem surrogate_strip_cex :
    extractWorldName (u16 "World: a𝄞b") = some (u16 "ab") ∧
    extractWorldName (u16 "World: a𝄞b") ≠ some (u16 "a𝄞b") ∧
    isHighSur 0xD834 = true ∧ isLowSur 0xDD1E = true ∧
    inEmojiBlock (pairCodePoint 0xD834 0xDD1E) = false := by
  refine ⟨by decide, by decide, by decide, by decide, by decide⟩

/-- Witness for C6 on a concrete surrogate-free trimmed string. -/
theorem surrogate_strip_wit :
    stripEmojiAndSurrogates (u16 "Park") = u16 "Park" :=
  surrogate_strip.2 (u16 "Park") (by decide) (by decide)

lemma hexIdUnit_vals {u : Nat} (h : isHexIdUnit u = true) :
    (0x61 ≤ u ∧ u ≤ 0x66) ∨ (0x41 ≤ u ∧ u ≤ 0x46) ∨
    (0x30 ≤ u ∧ u ≤ 0x39) ∨ u = 0x2D := by
  have h' := h
  simp only [isHexIdUnit, Bool.or_eq_true, Bool.and_eq_true, decide_eq_true_eq,
    beq_iff_eq] at h'
  tauto

/-- A hex-class unit can begin neither URL regex: it is not `v`/`V`
and not `?`/`&`. -/
lemma hexIdUnit_facts {u : Nat} (h : isHexIdUnit u = true) :
    (asciiLower u == 118) = false ∧ (u == 0x3F || u == 0x26) = false := by
  have hv := hexIdUnit_vals h
  constructor
  · simp only [beq_eq_false_iff_ne, ne_eq]
    unfold asciiLower
    split
    · rcases hv with ⟨a, b⟩ | ⟨a, b⟩ | ⟨a, b⟩ | a <;> omega
    · rcases hv with ⟨a, b⟩ | ⟨a, b⟩ | ⟨a, b⟩ | a <;> omega
  · simp only [Bool.or_eq_false_iff, beq_eq_false_iff_ne, ne_eq]
    rcases hv with ⟨a, b⟩ | ⟨a, b⟩ | ⟨a, b⟩ | a <;> exact ⟨by omega, by omega⟩

lemma vrchatLit_head :
    u16 "vrchat.com/home/world/" = 118 :: u16 "rchat.com/home/world/" := by decide

/-- Neither URL regex can match anywhere inside a hex-class-only
suffix. -/
lemma scans_hex_none : ∀ (h : JSStr), (∀ u ∈ h, isHexIdUnit u = true) →
    scan tryWorldPath h = none ∧ scan tryWorldQuery h = none := by
  intro h
  induction h with
  | nil => intro _; exact ⟨by decide, by decide⟩
  | cons u rest ih =>
    intro hall
    have hu := hexIdUnit_facts (hall u (by simp))
    have hrest := ih (fun x hx => hall x (List.mem_cons_of_mem u hx))
    constructor
    · have hf : tryWorldPath (u :: rest) = none := by
        simp [tryWorldPath, vrchatLit_head, matchLitCI, hu.1]
      simp [scan, hf, hrest.1]
    · have hf : tryWorldQuery (u :: rest) = none := by
        simp [tryWorldQuery, hu.2]
      simp [scan, hf, hrest.2]

lemma grabHex_take : ∀ (k : Nat) (h : JSStr), k ≤ h.length →
    (∀ u ∈ h, isHexIdUnit u = true) → grabHex k h = some (h.take k) := by
  intro k
  induction k with
  | zero => intro h _ _; simp [grabHex]
  | succ n ih =>
    intro h hle hall
    cases h with
    | nil => simp at hle
    | cons u rest =>
      have hu : isHexIdUnit u = true := hall u (by simp)
      rw [grabHex, if_pos hu,
        ih rest (by simpa using hle) (fun x hx => hall x (List.mem_cons_of_mem u hx))]
      simp

lemma grabHex_short : ∀ (k : Nat) (h : JSStr), h.length < k → grabHex k h = none := by
  intro k
  induction k with
  | zero => intro h hl; exact absurd hl (Nat.not_lt_zero _)
  | succ n ih =>
    intro h hl
    cases h with
    | nil => rfl
    | cons u rest =>
      rw [grabHex]
      split
      · rw [ih rest (by simpa using hl)]; rfl
      · rfl

/-- On a URL of the shape `https://vrchat.com/home/world/wrld_` + hex
tail, extraction reduces to whether 36 class units can be grabbed. -/
lemma extractWorldId_wrld_tail (h : JSStr) (hall : ∀ u ∈ h, isHexIdUnit u = true) :
    extractWorldIdFromUrl (u16 "https://vrchat.com/home/world/wrld_" ++ h) =
      (grabHex 36 h).map (fun hh => u16 "wrld_" ++ hh) := by
  have hpre : u16 "https://vrchat.com/home/world/wrld_" =
      [104, 116, 116, 112, 115, 58, 47, 47, 118, 114, 99, 104, 97, 116, 46, 99, 111,
       109, 47, 104, 111, 109, 101, 47, 119, 111, 114, 108, 100, 47, 119, 114, 108,
       100, 95] := by decide
  have h5 : u16 "wrld_" = [119, 114, 108, 100, 95] := by decide
  have hlit : u16 "vrchat.com/home/world/" =
      [118, 114, 99, 104, 97, 116, 46, 99, 111, 109, 47, 104, 111, 109, 101, 47, 119,
       111, 114, 108, 100, 47] := by decide
  have h8 : u16 "worldid=" = [119, 111, 114, 108, 100, 105, 100, 61] := by decide
  rw [hpre, h5]
  cases hg : grabHex 36 h with
  | some hh =>
    simp [extractWorldIdFromUrl, scan, tryWorldPath, tryWorldQuery, matchLitCI,
      matchWrldId, asciiLower, hlit, h5, h8, hg]
  | none =>
    simp [extractWorldIdFromUrl, scan, tryWorldPath, tryWorldQuery, matchLitCI,
      matchWrldId, asciiLower, hlit, h5, h8, hg,
      (scans_hex_none h hall).1, (scans_hex_none h hall).2]

/-- Claim C3 (amended): both URL regexes carry the `i` flag, so the
prefix token and hex digits are accepted case-insensitively, not only
in lowercase; a 35-unit hex/hyphen tail yields nothing, a 36-unit
tail yields the identifier, and — because `{36}` has no trailing
boundary — a 37-unit tail yields the identifier truncated to its
first 36 units rather than no identifier; a different prefix token
still yields nothing. -/
theorem identifier_grammar :
    (∀ (h : JSStr), (∀ u ∈ h, isHexIdUnit u = true) →
      (h.length = 35 →
        extractWorldIdFromUrl (u16 "https://vrchat.com/home/world/wrld_" ++ h) = none) ∧
      (h.length = 36 →
        extractWorldIdFromUrl (u16 "https://vrchat.com/home/world/wrld_" ++ h) =
          some (u16 "wrld_" ++ h)) ∧
      (h.length = 37 →
        extractWorldIdFromUrl (u16 "https://vrchat.com/home/world/wrld_" ++ h) =
          some (u16 "wrld_" ++ h.take 36))) ∧
    extractWorldIdFromUrl
        (u16 "https://vrchat.com/home/world/WRLD_AAAAAAAA-AAAA-AAAA-AAAA-AAAAAAAAAAAA") =
      some (u16 "WRLD_AAAAAAAA-AAAA-AAAA-AAAA-AAAAAAAAAAAA") ∧
    extractWorldIdFromUrl
        (u16 "https://vrchat.com/home/world/world_aaaaaaaa-aaaa-aaaa-aaaa-aaaaaaaaaaaa") =
      none := by
  refine ⟨?_, by decide, by decide⟩
  intro h hall
  refine ⟨?_, ?_, ?_⟩
  · intro hlen
    rw [extractWorldId_wrld_tail h hall, grabHex_short 36 h (by omega)]
    rfl
  · intro hlen
    rw [extractWorldId_wrld_tail h hall, grabHex_take 36 h (by omega) hall]
    rw [show h.take 36 = h.take h.length from by rw [hlen], List.take_length h]
    rfl
  · intro hlen
    rw [extractWorldId_wrld_tail h hall, grabHex_take 36 h (by omega) hall]
    rfl

/-- Counterexample for C3 as frozen: a candidate with 37 hex units
after the prefix does produce an identifier (the first 36 units), and
an all-uppercase candidate is accepted, so the grammar is neither
lowercase-only nor 37-rejecting. -/
theorem identifier_grammar_cex :
    extractWorldIdFromUrl
        (u16 "https://vrchat.com/home/world/wrld_aaaaaaaa-aaaa-aaaa-aaaa-aaaaaaaaaaaa"
          ++ [0x61]) =
      some (u16 "wrld_aaaaaaaa-aaaa-aaaa-aaaa-aaaaaaaaaaaa") ∧
    extractWorldIdFromUrl
        (u16 "https://vrchat.com/home/world/WRLD_AAAAAAAA-AAAA-AAAA-AAAA-AAAAAAAAAAAA") ≠
      none := by
  constructor
  · decide
  · decide

/-- Witness for C3 at hex tails of lengths 35, 36 and 37. -/
theorem identifier_grammar_wit :
    extractWorldIdFromUrl
        (u16 "https://vrchat.com/home/world/wrld_" ++ List.replicate 35 0x61) = none ∧
    extractWorldIdFromUrl
        (u16 "https://vrchat.com/home/world/wrld_" ++ List.replicate 36 0x61) =
      some (u16 "wrld_" ++ List.replicate 36 0x61) ∧
    extractWorldIdFromUrl
        (u16 "https://vrchat.com/home/world/wrld_" ++ List.replicate 37 0x61) =
      some (u16 "wrld_" ++ (List.replicate 37 0x61).take 36) :=
  ⟨(identifier_grammar.1 (List.replicate 35 0x61) (by decide)).1 (by decide),
   (identifier_grammar.1 (List.replicate 36 0x61) (by decide)).2.1 (by decide),
   (identifier_grammar.1 (List.replicate 37 0x61) (by decide)).2.2 (by decide)⟩

/-- Claim C7: the text–image–text subtree normalizes to
`World: 🌍Park` and extraction of that string yields `Park`. -/
theorem normalization_round_trip :
    getTextWithEmoji (some (DNode.elem "DIV" []
        [DNode.textNode (u16 "World: "),
         DNode.elem "IMG" (u16 "🌍") [],
         DNode.textNode (u16 "Park")])) = u16 "World: 🌍Park" ∧
    extractWorldName (u16 "World: 🌍Park") = some (u16 "Park") := by
  constructor
  · rfl
  · rfl

/-- The two document-wide clearing passes amount to resetting every
tweet's group list and marker. -/
lemma clear_passes (t : Tweet) : clearProcessed (removeContainers t) = clearTweet t := rfl

lemma clear_passes_map :
    ∀ doc : List Tweet, (doc.map removeContainers).map clearProcessed = doc.map clearTweet
  | [] => rfl
  | t :: ts => by
    rw [List.map_cons, List.map_cons, List.map_cons, clear_passes t, clear_passes_map ts]

/-- Claim C8: a settings-update with a payload clears every injected
group and every marker before any rescan, rescans exactly when the
new enabled flag holds, and its outcome is independent of the
pre-update markers, groups and flags (no element retains state from
the previous epoch). -/
theorem settings_epoch_reset (m : SettingsMsg) (st st2 : Settings)
    (doc doc2 : List Tweet)
    (hsame : doc.map clearTweet = doc2.map clearTweet) :
    (onUpdateSettings (some m) st doc).2 =
      (if (settingsFromMsg m).isExtensionEnabled then
        processAllTweets (settingsFromMsg m) (doc.map clearTweet)
      else doc.map clearTweet) ∧
    onUpdateSettings (some m) st doc = onUpdateSettings (some m) st2 doc2 ∧
    ((settingsFromMsg m).isExtensionEnabled = false →
      ∀ t ∈ (onUpdateSettings (some m) st doc).2,
        t.processed = false ∧ t.controlGroups = []) := by
  have hdef : ∀ (s : Settings) (d : List Tweet),
      onUpdateSettings (some m) s d =
        (if (settingsFromMsg m).isExtensionEnabled then
          (settingsFromMsg m, processAllTweets (settingsFromMsg m) (d.map clearTweet))
        else (settingsFromMsg m, d.map clearTweet)) := by
    intro s d
    rw [show onUpdateSettings (some m) s d =
        (if (settingsFromMsg m).isExtensionEnabled then
          (settingsFromMsg m,
            processAllTweets (settingsFromMsg m) ((d.map removeContainers).map clearProcessed))
        else (settingsFromMsg m, (d.map removeContainers).map clearProcessed)) from rfl,
      clear_passes_map d]
  refine ⟨?_, ?_, ?_⟩
  · rw [hdef]
    cases he : (settingsFromMsg m).isExtensionEnabled <;> simp [he]
  · rw [hdef, hdef, hsame]
  · intro he t ht
    rw [hdef, he] at ht
    simp only [Bool.false_eq_true, if_false] at ht
    rcases List.mem_map.1 ht with ⟨t0, _, rfl⟩
    exact ⟨rfl, rfl⟩

/-- Witness for C8: two documents differing only in epoch state (one
has a marker and a search-control group, the other neither) are
handled identically by a disabling update. -/
theorem settings_epoch_reset_wit :
    onUpdateSettings (some ⟨some false, none, none⟩) ⟨true, true, true⟩
        [⟨true, none, [], true, [⟨none, some (u16 "x")⟩]⟩] =
      onUpdateSettings (some ⟨some false, none, none⟩) ⟨false, false, false⟩
        [⟨false, none, [], true, []⟩] :=
  (settings_epoch_reset ⟨some false, none, none⟩ ⟨true, true, true⟩ ⟨false, false, false⟩
    [⟨true, none, [], true, [⟨none, some (u16 "x")⟩]⟩]
    [⟨false, none, [], true, []⟩] rfl).2.1

/-- A triggering batch seen while exactly the remembered timer is
pending cancels it and leaves exactly the fresh timer pending. -/
lemma runBatches_keeps_single :
    ∀ (batches : List (List Nat)) (s : TimerState),
      (∃ id, s.debounceTimerId = some id ∧ s.pending = [id]) →
      (∀ b ∈ batches, b.any (fun n => decide (0 < n)) = true) →
      ∃ id2, (runBatches batches s).debounceTimerId = some id2 ∧
        (runBatches batches s).pending = [id2] := by
  intro batches
  induction batches with
  | nil => intro s hs _; exact hs
  | cons b bs ih =>
    intro s hs hall
    obtain ⟨id, hdb, hp⟩ := hs
    have hb : b.any (fun n => decide (0 < n)) = true := hall b (by simp)
    have hstep : observerCallback b s = ⟨[s.nextId], some s.nextId, s.nextId + 1⟩ := by
      simp [observerCallback, hb, hdb, hp, List.filter]
    rw [show runBatches (b :: bs) s = runBatches bs (observerCallback b s) from rfl, hstep]
    exact ih _ ⟨s.nextId, rfl, rfl⟩ (fun x hx => hall x (List.mem_cons_of_mem b hx))

/-- Claim C9: starting from an idle observer, a burst of N ≥ 1
mutation batches that each contain an added node and all arrive
within the debounce delay leaves exactly one pending timer — so
exactly one Feed Scanner invocation results — while a batch with no
added nodes changes nothing. -/
theorem debounce_coalescing :
    (∀ (batches : List (List Nat)) (s0 : TimerState),
      s0.pending = [] → s0.debounceTimerId = none → batches ≠ [] →
      (∀ b ∈ batches, b.any (fun n => decide (0 < n)) = true) →
      pendingScans (runBatches batches s0) = 1) ∧
    (∀ (b : List Nat) (s : TimerState),
      b.any (fun n => decide (0 < n)) = false → observerCallback b s = s) := by
  constructor
  · intro batches s0 hp hdb hne hall
    cases batches with
    | nil => exact absurd rfl hne
    | cons b bs =>
      have hb := hall b (by simp)
      have hstep : observerCallback b s0 = ⟨[s0.nextId], some s0.nextId, s0.nextId + 1⟩ := by
        simp [observerCallback, hb, hdb, hp]
      rw [show runBatches (b :: bs) s0 = runBatches bs (observerCallback b s0) from rfl,
        hstep]
      obtain ⟨id2, _, hp2⟩ := runBatches_keeps_single bs
        ⟨[s0.nextId], some s0.nextId, s0.nextId + 1⟩ ⟨s0.nextId, rfl, rfl⟩
        (fun x hx => hall x (List.mem_cons_of_mem b hx))
      simp [pendingScans, hp2]
  · intro b s hb
    simp [observerCallback, hb]

/-- Witness for C9: three rapid batches coalesce to one scan; an
empty-addition batch is a no-op. -/
theorem debounce_coalescing_wit :
    pendingScans (runBatches [[1], [2], [3, 0]] ⟨[], none, 0⟩) = 1 ∧
    observerCallback [0, 0] ⟨[5], some 5, 6⟩ = ⟨[5], some 5, 6⟩ :=
  ⟨debounce_coalescing.1 [[1], [2], [3, 0]] ⟨[], none, 0⟩ rfl rfl (by decide) (by decide),
   debounce_coalescing.2 [0, 0] ⟨[5], some 5, 6⟩ (by decide)⟩

/-- Claim C10: every settings flag — read at initialization, re-read
by the debounced scan, or delivered by an update message — is true
unless its value is exactly the boolean `false`; a missing key
defaults to true, so by default the pipeline is enabled and both
controls are shown. -/
theorem default_true_flags :
    flagOf none = true ∧ flagOf (some true) = true ∧ flagOf (some false) = false ∧
    (∀ (m : SettingsMsg) (st : Settings) (doc : List Tweet),
      (onUpdateSettings (some m) st doc).1 = settingsFromMsg m) ∧
    (∀ (stored : SettingsMsg) (doc : List Tweet),
      (initContentScript stored doc).1 = settingsFromMsg stored) ∧
    (∀ (st : Settings) (doc : List Tweet),
      processAllTweetsIfEnabled none st doc =
        ({ st with isExtensionEnabled := true },
         processAllTweets { st with isExtensionEnabled := true } doc)) ∧
    (∀ doc : List Tweet,
      initContentScript ⟨none, none, none⟩ doc =
        (⟨true, true, true⟩, processAllTweets ⟨true, true, true⟩ doc)) := by
  refine ⟨rfl, rfl, rfl, ?_, ?_, ?_, ?_⟩
  · intro m st doc
    cases he : (settingsFromMsg m).isExtensionEnabled <;> simp [onUpdateSettings, he]
  · intro stored doc; rfl
  · intro st doc; rfl
  · intro doc; rfl

end VWO
